import Mathlib

/-!
Verification of the GNS3 dynamic-inventory plugin
(`plugins/inventory/gns3.py`).

The development shallowly embeds the plugin's pipeline:

* `find_project_id` embeds the static method `_find_project_id`;
* `candidate`, `dupSuffix`, `connectionHost` embed the per-node naming,
  deduplication-suffix and connection-host computations of `parse`;
* `Inventory` models the Ansible inventory object (`add_group`,
  `add_host`, `add_child`, `set_variable` with last-write-wins lookup);
* `processNode` embeds the body of the `for n in nodes` loop of `parse`;
* `runNodes` folds `processNode` over the node list, starting from an
  inventory that already holds the parent group (line
  `self.inventory.add_group(parent_group)`);
* `fetchSource` embeds the cache-or-fetch stage of `parse`, with the two
  HTTP responses supplied as oracles and an explicit count of remote
  calls made plus the cache write performed;
* `parseRun` composes the two stages.

Python truthiness of optional strings is made explicit by `pyTruthy`;
JSON scalar values (for the `console` field and for host variables) are
the type `JVal`.
-/

namespace Gns3

/-- A JSON scalar value as it appears in node records and host variables:
null (also used for an absent key, as Python's `dict.get` returns `None`),
an integer, or a string. -/
inductive JVal where
  | null : JVal
  | jint : Int → JVal
  | jstr : String → JVal
deriving DecidableEq, Repr

/-- Python truthiness of an optional string: `None` and `""` are falsy. -/
def pyTruthy : Option String → Bool
  | none => false
  | some s => !s.data.isEmpty

/-- Python `a or b` on two optional strings. -/
def pyOrOpt (a b : Option String) : Option String :=
  if pyTruthy a then a else b

/-- An absent-or-string field as a host-variable value. -/
def optJ : Option String → JVal
  | none => .null
  | some s => .jstr s

/-- A project record as returned by `GET /v2/projects`; `dict.get` on a
missing key yields `None`, hence both fields are optional. -/
structure Project where
  project_id : Option String := none
  name : Option String := none
deriving DecidableEq, Repr

/-- A node record as returned by `GET /v2/projects/.../nodes`. -/
structure Node where
  node_id : Option String := none
  name : Option String := none
  node_type : Option String := none
  status : Option String := none
  console_type : Option String := none
  console_host : Option String := none
  console : JVal := .null
deriving DecidableEq, Repr

/-- The errors `parse` can raise (each an `AnsibleParserError` in the
plugin, distinguished here by its message): an HTTP failure wrapping the
underlying cause, the three project-selector failures, and the
missing-selector failure. -/
inductive ParseError where
  | http : String → ParseError
  | notFoundId : String → ParseError
  | notFoundName : String → ParseError
  | ambiguousName : String → ParseError
  | missingSelector : ParseError
deriving DecidableEq, Repr

/-- Embedding of `InventoryModule._find_project_id`.  `if project_id:` and
`if project_name:` are Python truthiness tests (`pyTruthy`); the id branch
scans for a project whose `project_id` equals the given one and returns the
given id; the name branch filters by name and returns the single match's
`project_id` field (which may itself be absent, hence `Option String`). -/
def find_project_id (projects : List Project) (project_id project_name : Option String) :
    Except ParseError (Option String) :=
  if pyTruthy project_id then
    if projects.any (fun p => p.project_id == project_id) then
      .ok project_id
    else
      .error (.notFoundId (project_id.getD ""))
  else if pyTruthy project_name then
    match projects.filter (fun p => p.name == project_name) with
    | [] => .error (.notFoundName (project_name.getD ""))
    | [p] => .ok p.project_id
    | _ => .error (.ambiguousName (project_name.getD ""))
  else
    .error .missingSelector

/-- The Ansible inventory object, restricted to the operations the plugin
performs: `add_group` (idempotent), `add_host host parent` (registers the
host and its parent-group membership), `add_child group host`, and
`set_variable` (last write wins).  Variables are stored newest-first so
`getVar` returns the most recent write. -/
structure Inventory where
  groups : List String := []
  hosts : List String := []
  memberships : List (String × String) := []
  vars : List (String × String × JVal) := []
deriving DecidableEq, Repr

/-- The empty inventory. -/
def Inventory.empty : Inventory := {}

/-- Embeds `inventory.add_group(g)`: a no-op when the group already exists. -/
def Inventory.add_group (inv : Inventory) (g : String) : Inventory :=
  if g ∈ inv.groups then inv else { inv with groups := inv.groups ++ [g] }

/-- Embeds `inventory.add_child(g, h)`: record host `h` as a member of group `g`. -/
def Inventory.add_child (inv : Inventory) (g h : String) : Inventory :=
  if (g, h) ∈ inv.memberships then inv
  else { inv with memberships := inv.memberships ++ [(g, h)] }

/-- Embeds `inventory.add_host(h, group=g)`: register the host (idempotently) and
add it to group `g`. -/
def Inventory.add_host (inv : Inventory) (h g : String) : Inventory :=
  (if h ∈ inv.hosts then inv else { inv with hosts := inv.hosts ++ [h] }).add_child g h

/-- Embeds `inventory.set_variable(h, k, v)`. -/
def Inventory.set_variable (inv : Inventory) (h k : String) (v : JVal) : Inventory :=
  { inv with vars := (h, k, v) :: inv.vars }

/-- The value of variable `k` of host `h`, `none` when never set. -/
def Inventory.getVar (inv : Inventory) (h k : String) : Option JVal :=
  (inv.vars.find? (fun t => t.1 == h && t.2.1 == k)).map (fun t => t.2.2)

/-- The run configuration, as read by `parse` from the plugin options:
`controller_host` is the hostname parsed once from the base URL by
`_controller_host_from_url`; `use_cache` is `cache and get_option("cache")`. -/
structure Config where
  controller_host : String := ""
  parent_group : String := "gns3"
  host_naming : String := "name"
  port_offset : Int := 0
  group_by_node_type : Bool := true
  project_id : Option String := none
  project_name : Option String := none
  use_cache : Bool := false
deriving Repr

/-- The candidate host identifier of a node:
`host = node_name if host_naming == "name" else node_id` followed by
`host = host or node_name or node_id`; yields `none` (the node is skipped
by `if not host: continue`) when the result is falsy. -/
def candidate (host_naming : String) (n : Node) : Option String :=
  let host := if host_naming == "name" then n.name else n.node_id
  let host := pyOrOpt (pyOrOpt host n.name) n.node_id
  if pyTruthy host then host else none

/-- The deduplication suffix:
`(node_id or "")[-6:] if node_id else "dup"` — the last (up to) six
characters of a truthy `node_id`, the literal `dup` otherwise. -/
def dupSuffix (node_id : Option String) : String :=
  if pyTruthy node_id then
    let s := (node_id.getD "").data
    String.mk (s.drop (s.length - 6))
  else "dup"

/-- The connection host:
`console_host = n.get("console_host") or controller_host` followed by the
wildcard substitution `if console_host in ("0.0.0.0", "::")`. -/
def connectionHost (controller_host : String) (n : Node) : String :=
  let ch := match n.console_host with
    | some s => if pyTruthy (some s) then s else controller_host
    | none => controller_host
  if ch == "0.0.0.0" || ch == "::" then controller_host else ch

/-- The state threaded through the node loop of `parse`: the inventory,
the `seen` set of already-used identifiers, and (for specification
purposes) the sequence of emitted final identifiers in node order, each
tagged with whether the deduplication suffix was applied. -/
structure RunState where
  inv : Inventory
  seen : List String
  emitted : List (String × Bool)
deriving Repr

/-- The state right before the node loop: empty inventory except that
`parse` has just executed `self.inventory.add_group(parent_group)`, and
`seen = set()`. -/
def initState (cfg : Config) : RunState :=
  ⟨Inventory.empty.add_group cfg.parent_group, [], []⟩

/-- The body of the `for n in nodes` loop of `parse`, for one node. -/
def processNode (cfg : Config) (pid : Option String) (st : RunState) (n : Node) :
    RunState :=
  match candidate cfg.host_naming n with
  | none => st
  | some host0 =>
    let isDup := st.seen.contains host0
    let host := if isDup then host0 ++ "_" ++ dupSuffix n.node_id else host0
    let seen := host :: st.seen
    let inv := st.inv.add_host host cfg.parent_group
    let inv := inv.set_variable host "gns3_project_id" (optJ pid)
    let inv := inv.set_variable host "gns3_node_id" (optJ n.node_id)
    let inv := inv.set_variable host "gns3_node_name" (optJ n.name)
    let inv := inv.set_variable host "gns3_node_type" (optJ n.node_type)
    let inv := inv.set_variable host "gns3_status" (optJ n.status)
    let inv := inv.set_variable host "gns3_console_type" (optJ n.console_type)
    let inv := inv.set_variable host "gns3_console_host" (optJ n.console_host)
    let inv := inv.set_variable host "gns3_console_port" n.console
    let ch := connectionHost cfg.controller_host n
    let inv :=
      match n.console with
      | .jint p =>
        (inv.set_variable host "ansible_host" (.jstr ch)).set_variable host
          "ansible_port" (.jint (p + cfg.port_offset))
      | _ => inv.set_variable host "ansible_host" (.jstr ch)
    let inv :=
      if cfg.group_by_node_type && pyTruthy n.node_type then
        let g := "gns3_type_" ++ n.node_type.getD ""
        (inv.add_group g).add_child g host
      else inv
    ⟨inv, seen, st.emitted ++ [(host, isDup)]⟩

/-- The whole node loop of `parse`, starting from `initState`. -/
def runNodes (cfg : Config) (pid : Option String) (nodes : List Node) : RunState :=
  nodes.foldl (processNode cfg pid) (initState cfg)

/-- The cached payload: `{"project_id": pid, "nodes": nodes}`. -/
structure Source where
  project_id : Option String
  nodes : List Node
deriving DecidableEq, Repr

/-- Outcome of the cache-or-fetch stage: the payload or the fatal error,
the number of remote calls made, and the cache write performed (if any). -/
structure FetchOutcome where
  result : Except ParseError Source
  remoteCalls : Nat
  cacheWrite : Option Source
deriving Repr

/-- The cache-or-fetch stage of `parse`: on a cache hit (caching enabled
and an entry present) the payload is returned unchanged with no remote
call; otherwise the project list is fetched, the project resolved, the
node list fetched, and — when caching is enabled — the assembled payload
written back to the cache.  The two HTTP responses are supplied as
oracles; an `.error` oracle value models `open_url` raising, which the
plugin wraps in an `AnsibleParserError` (here `ParseError.http`). -/
def fetchSource (use_cache : Bool) (cached : Option Source)
    (project_id project_name : Option String)
    (projectsResp : Except String (List Project))
    (nodesResp : Option String → Except String (List Node)) : FetchOutcome :=
  let source := if use_cache then cached else none
  match source with
  | some s => ⟨.ok s, 0, none⟩
  | none =>
    match projectsResp with
    | .error msg => ⟨.error (.http msg), 1, none⟩
    | .ok projects =>
      match find_project_id projects project_id project_name with
      | .error e => ⟨.error e, 1, none⟩
      | .ok pid =>
        match nodesResp pid with
        | .error msg => ⟨.error (.http msg), 2, none⟩
        | .ok nodes =>
          ⟨.ok ⟨pid, nodes⟩, 2, if use_cache then some ⟨pid, nodes⟩ else none⟩

/-- The whole of `parse`: the fetch stage followed, on success only, by
the node loop.  Returns the final run state (or the fatal error), the
number of remote calls made and the cache write performed. -/
def parseRun (cfg : Config) (cached : Option Source)
    (projectsResp : Except String (List Project))
    (nodesResp : Option String → Except String (List Node)) :
    Except ParseError RunState × Nat × Option Source :=
  let f := fetchSource cfg.use_cache cached cfg.project_id cfg.project_name
    projectsResp nodesResp
  match f.result with
  | .error e => (.error e, f.remoteCalls, f.cacheWrite)
  | .ok s => (.ok (runNodes cfg s.project_id s.nodes), f.remoteCalls, f.cacheWrite)

/-- Invariant of the node loop relating `emitted` to `seen`: every emitted
identifier is in the used-set, and an identifier emitted without the
deduplication suffix differs from every identifier emitted before it. -/
def EmittedInv (st : RunState) : Prop :=
  (∀ e ∈ st.emitted, e.1 ∈ st.seen) ∧
  st.emitted.Pairwise (fun a b => b.2 = false → a.1 ≠ b.1)

/-- Invariant of the node loop for group memberships: the parent group
exists, every registered host is a member of the parent group, every group
membership is mirrored by a parent-group membership, and with
`group_by_node_type` disabled the parent group is the only group. -/
def GroupClauses (cfg : Config) (inv : Inventory) : Prop :=
  cfg.parent_group ∈ inv.groups ∧
  (∀ x ∈ inv.hosts, (cfg.parent_group, x) ∈ inv.memberships) ∧
  (∀ m ∈ inv.memberships, (cfg.parent_group, m.2) ∈ inv.memberships) ∧
  (cfg.group_by_node_type = false → inv.groups = [cfg.parent_group])

/-! ## Basic lemmas -/

/-- A non-empty string is Python-truthy. -/
theorem pyTruthy_some (s : String) : pyTruthy (some s) = true ↔ s ≠ "" := by
  have hdata : ("" : String).data = [] := rfl
  cases s with
  | mk l =>
    cases l with
    | nil => simp [pyTruthy, String.ext_iff, hdata]
    | cons c t => simp [pyTruthy, String.ext_iff, hdata]

theorem vars_add_group (inv : Inventory) (g : String) :
    (inv.add_group g).vars = inv.vars := by
  unfold Inventory.add_group; split <;> rfl

theorem vars_add_child (inv : Inventory) (g h : String) :
    (inv.add_child g h).vars = inv.vars := by
  unfold Inventory.add_child; split <;> rfl

theorem vars_add_host (inv : Inventory) (h g : String) :
    (inv.add_host h g).vars = inv.vars := by
  unfold Inventory.add_host
  rw [vars_add_child]
  split <;> rfl

theorem groups_add_child (inv : Inventory) (g h : String) :
    (inv.add_child g h).groups = inv.groups := by
  unfold Inventory.add_child; split <;> rfl

theorem groups_add_host (inv : Inventory) (h g : String) :
    (inv.add_host h g).groups = inv.groups := by
  unfold Inventory.add_host
  rw [groups_add_child]
  split <;> rfl

theorem groups_set_variable (inv : Inventory) (h k : String) (v : JVal) :
    (inv.set_variable h k v).groups = inv.groups := rfl

theorem hosts_add_group (inv : Inventory) (g : String) :
    (inv.add_group g).hosts = inv.hosts := by
  unfold Inventory.add_group; split <;> rfl

theorem hosts_add_child (inv : Inventory) (g h : String) :
    (inv.add_child g h).hosts = inv.hosts := by
  unfold Inventory.add_child; split <;> rfl

theorem hosts_set_variable (inv : Inventory) (h k : String) (v : JVal) :
    (inv.set_variable h k v).hosts = inv.hosts := rfl

theorem memberships_add_group (inv : Inventory) (g : String) :
    (inv.add_group g).memberships = inv.memberships := by
  unfold Inventory.add_group; split <;> rfl

theorem memberships_set_variable (inv : Inventory) (h k : String) (v : JVal) :
    (inv.set_variable h k v).memberships = inv.memberships := rfl

theorem mem_groups_add_group (inv : Inventory) (g x : String) (hx : x ∈ inv.groups) :
    x ∈ (inv.add_group g).groups := by
  unfold Inventory.add_group
  split
  · exact hx
  · exact List.mem_append_left _ hx

theorem mem_memberships_add_child (inv : Inventory) (g h : String)
    (x : String × String) (hx : x ∈ inv.memberships) :
    x ∈ (inv.add_child g h).memberships := by
  unfold Inventory.add_child
  split
  · exact hx
  · exact List.mem_append_left _ hx

theorem add_child_mem_self (inv : Inventory) (g h : String) :
    (g, h) ∈ (inv.add_child g h).memberships := by
  unfold Inventory.add_child
  split
  · assumption
  · exact List.mem_append_right _ (List.mem_singleton.mpr rfl)

theorem mem_of_memberships_add_child (inv : Inventory) (g h : String)
    (x : String × String) (hx : x ∈ (inv.add_child g h).memberships) :
    x ∈ inv.memberships ∨ x = (g, h) := by
  unfold Inventory.add_child at hx
  split at hx
  · exact Or.inl hx
  · rcases List.mem_append.mp hx with hx | hx
    · exact Or.inl hx
    · exact Or.inr (List.mem_singleton.mp hx)

theorem mem_memberships_add_host (inv : Inventory) (h g : String)
    (x : String × String) (hx : x ∈ inv.memberships) :
    x ∈ (inv.add_host h g).memberships := by
  unfold Inventory.add_host
  split <;> exact mem_memberships_add_child _ _ _ _ hx

theorem add_host_mem_self (inv : Inventory) (h g : String) :
    (g, h) ∈ (inv.add_host h g).memberships := by
  unfold Inventory.add_host
  split <;> exact add_child_mem_self _ _ _

theorem mem_of_memberships_add_host (inv : Inventory) (h g : String)
    (x : String × String) (hx : x ∈ (inv.add_host h g).memberships) :
    x ∈ inv.memberships ∨ x = (g, h) := by
  unfold Inventory.add_host at hx
  split at hx
  · exact mem_of_memberships_add_child _ _ _ _ hx
  · rcases mem_of_memberships_add_child _ _ _ _ hx with h1 | h1
    · exact Or.inl h1
    · exact Or.inr h1

theorem mem_of_hosts_add_host (inv : Inventory) (h g : String)
    (x : String) (hx : x ∈ (inv.add_host h g).hosts) :
    x ∈ inv.hosts ∨ x = h := by
  unfold Inventory.add_host at hx
  rw [hosts_add_child] at hx
  split at hx
  · exact Or.inl hx
  · rcases List.mem_append.mp hx with hx | hx
    · exact Or.inl hx
    · exact Or.inr (List.mem_singleton.mp hx)

theorem getVar_set_variable (inv : Inventory) (h k : String) (v : JVal)
    (h' k' : String) :
    (inv.set_variable h k v).getVar h' k' =
      if h = h' ∧ k = k' then some v else inv.getVar h' k' := by
  simp only [Inventory.set_variable, Inventory.getVar, List.find?]
  rcases hh : (h == h') with _ | _ <;> rcases hk : (k == k') with _ | _ <;>
    simp_all [beq_iff_eq]

/-! ## Claim theorems -/

/-- C1: with a non-empty `project_id`, resolution returns that id iff some
project in the list carries it and otherwise fails with the id-not-found
error; with `project_id` falsy and a non-empty `project_name`, zero name
matches fail with the name-not-found error, exactly one match returns that
project's id and two or more matches fail with the ambiguous-selector
error; with both selectors falsy, resolution fails with the
missing-selector error. -/
theorem find_project_id_cases (projects : List Project)
    (project_id project_name : Option String) :
    (∀ s : String, project_id = some s → s ≠ "" →
      ((∃ p ∈ projects, p.project_id = some s) →
        find_project_id projects project_id project_name = .ok (some s)) ∧
      ((¬ ∃ p ∈ projects, p.project_id = some s) →
        find_project_id projects project_id project_name = .error (.notFoundId s))) ∧
    (pyTruthy project_id = false → ∀ s : String, project_name = some s → s ≠ "" →
      ((projects.filter (fun p => p.name == some s) = []) →
        find_project_id projects project_id project_name = .error (.notFoundName s)) ∧
      (∀ p : Project, projects.filter (fun p => p.name == some s) = [p] →
        find_project_id projects project_id project_name = .ok p.project_id) ∧
      (2 ≤ (projects.filter (fun p => p.name == some s)).length →
        find_project_id projects project_id project_name = .error (.ambiguousName s))) ∧
    (pyTruthy project_id = false → pyTruthy project_name = false →
      find_project_id projects project_id project_name = .error .missingSelector) := by
  refine ⟨?_, ?_, ?_⟩
  · rintro s rfl hs
    have ht : pyTruthy (some s) = true := (pyTruthy_some s).mpr hs
    constructor
    · rintro ⟨p, hp, hid⟩
      have : projects.any (fun p => p.project_id == some s) = true := by
        simp only [List.any_eq_true]
        exact ⟨p, hp, by simp [hid]⟩
      simp [find_project_id, ht, this]
    · intro hno
      have : projects.any (fun p => p.project_id == some s) = false := by
        simp only [List.any_eq_false]
        intro p hp hbe
        exact hno ⟨p, hp, by simpa using hbe⟩
      simp [find_project_id, ht, this]
  · rintro hid s rfl hs
    have ht : pyTruthy (some s) = true := (pyTruthy_some s).mpr hs
    refine ⟨?_, ?_, ?_⟩
    · intro hfil
      simp [find_project_id, hid, ht, hfil]
    · intro p hfil
      simp [find_project_id, hid, ht, hfil]
    · intro hlen
      rcases hmatch : projects.filter (fun p => p.name == some s) with _ | ⟨a, _ | ⟨b, t⟩⟩
      · rw [hmatch] at hlen; simp at hlen
      · rw [hmatch] at hlen; simp at hlen
      · simp [find_project_id, hid, ht, hmatch]
  · intro hid hname
    simp [find_project_id, hid, hname]

/-- C10: an empty-string `project_id` is falsy, so it does not take
precedence: resolution behaves exactly as if `project_id` were absent and
proceeds by `project_name`; when `project_name` is also absent or empty the
failure is the missing-selector error, not a not-found error. -/
theorem empty_project_id_no_precedence (projects : List Project)
    (project_name : Option String) :
    find_project_id projects (some "") project_name =
      find_project_id projects none project_name ∧
    ((project_name = none ∨ project_name = some "") →
      find_project_id projects (some "") project_name = .error .missingSelector) := by
  have h0 : pyTruthy (some "") = false := rfl
  have h1 : pyTruthy none = false := rfl
  constructor
  · simp [find_project_id, h0, h1]
  · rintro (rfl | rfl) <;> simp [find_project_id, h0, h1, pyTruthy]

/-- C7: under naming policy `name` the candidate identifier is the node's
`name` when truthy and falls back to `node_id` otherwise; under policy
`node_id` it is `node_id` when truthy and falls back to `name` otherwise;
when both fields are falsy the candidate is `none` and the loop body
leaves the run state untouched — no host, no variables, no error. -/
theorem candidate_fallback_skip (cfg : Config) (pid : Option String)
    (st : RunState) (n : Node) :
    (cfg.host_naming = "name" →
      (pyTruthy n.name = true → candidate cfg.host_naming n = n.name) ∧
      (pyTruthy n.name = false → pyTruthy n.node_id = true →
        candidate cfg.host_naming n = n.node_id)) ∧
    (cfg.host_naming = "node_id" →
      (pyTruthy n.node_id = true → candidate cfg.host_naming n = n.node_id) ∧
      (pyTruthy n.node_id = false → pyTruthy n.name = true →
        candidate cfg.host_naming n = n.name)) ∧
    (pyTruthy n.name = false → pyTruthy n.node_id = false →
      candidate cfg.host_naming n = none ∧ processNode cfg pid st n = st) := by
  refine ⟨?_, ?_, ?_⟩
  · intro hn
    rw [hn]
    constructor
    · intro ht
      simp [candidate, pyOrOpt, ht]
    · intro hf ht
      simp [candidate, pyOrOpt, hf, ht]
  · intro hn
    rw [hn]
    have hne : (("node_id" : String) == "name") = false := by decide
    constructor
    · intro ht
      simp [candidate, pyOrOpt, hne, ht]
    · intro hf ht
      simp [candidate, pyOrOpt, hne, hf, ht]
  · intro hna hni
    have hc : candidate cfg.host_naming n = none := by
      unfold candidate
      rcases h : (cfg.host_naming == "name") with _ | _ <;>
        simp [pyOrOpt, hna, hni, h]
    exact ⟨hc, by simp [processNode, hc]⟩

/-- C7 witness: a node with empty `name` and absent `node_id` is skipped by
a run whose naming policy is `name`. -/
theorem candidate_fallback_skip_app :
    candidate ({} : Config).host_naming { name := some "" } = none ∧
    processNode {} (some "p") (initState {}) { name := some "" } = initState {} :=
  (candidate_fallback_skip {} (some "p") (initState {}) { name := some "" }).2.2
    (by decide) (by decide)

/-- C2: two nodes resolving to the same candidate identifier: the first
keeps the unsuffixed identifier, the second's final identifier is the
candidate followed by an underscore and the deduplication suffix — the
last six characters of its `node_id` when truthy, the literal `dup` when
`node_id` is absent or empty — and both final identifiers are recorded in
the used-set. -/
theorem dedup_two_nodes (cfg : Config) (pid : Option String) (n1 n2 : Node)
    (c : String) (h1 : candidate cfg.host_naming n1 = some c)
    (h2 : candidate cfg.host_naming n2 = some c) :
    (runNodes cfg pid [n1, n2]).emitted.map Prod.fst =
      [c, c ++ "_" ++ dupSuffix n2.node_id] ∧
    (∀ s : String, n2.node_id = some s → s ≠ "" →
      dupSuffix n2.node_id = String.mk (s.data.drop (s.data.length - 6))) ∧
    (pyTruthy n2.node_id = false → dupSuffix n2.node_id = "dup") ∧
    (runNodes cfg pid [n1, n2]).seen.contains c = true ∧
    (runNodes cfg pid [n1, n2]).seen.contains (c ++ "_" ++ dupSuffix n2.node_id)
      = true := by
  have hrun : runNodes cfg pid [n1, n2] =
      processNode cfg pid (processNode cfg pid (initState cfg) n1) n2 := rfl
  have hst1 : processNode cfg pid (initState cfg) n1 =
      ⟨(processNode cfg pid (initState cfg) n1).inv, [c], [(c, false)]⟩ := by
    simp only [processNode, h1, initState]
    simp [List.contains]
  refine ⟨?_, ?_, ?_, ?_, ?_⟩
  · rw [hrun, hst1]
    simp only [processNode, h2]
    simp [List.contains]
  · intro s hsid hs
    rw [hsid]
    simp [dupSuffix, (pyTruthy_some s).mpr hs]
  · intro hf
    simp [dupSuffix, hf]
  · rw [hrun, hst1]
    simp only [processNode, h2]
    simp [List.contains]
  · rw [hrun, hst1]
    simp only [processNode, h2]
    simp [List.contains]

/-- C2 witness: two nodes named `r`, the second with node id `abcdefgh`,
yield hosts `r` and `r_cdefgh`, both recorded in the used-set. -/
theorem dedup_two_nodes_app :
    (runNodes {} (some "p")
        [{ name := some "r" }, { name := some "r", node_id := some "abcdefgh" }]).emitted.map
      Prod.fst = ["r", "r" ++ "_" ++ dupSuffix (some "abcdefgh")] :=
  (dedup_two_nodes {} (some "p") { name := some "r" }
    { name := some "r", node_id := some "abcdefgh" } "r" (by decide) (by decide)).1

theorem processNode_emittedInv (cfg : Config) (pid : Option String)
    (st : RunState) (n : Node) (h : EmittedInv st) :
    EmittedInv (processNode cfg pid st n) := by
  rcases hcand : candidate cfg.host_naming n with _ | host0
  · simpa [processNode, hcand] using h
  · rcases h with ⟨hmem, hpw⟩
    unfold EmittedInv
    simp only [processNode, hcand]
    constructor
    · intro e he
      rcases List.mem_append.mp he with he | he
      · exact List.mem_cons_of_mem _ (hmem e he)
      · rw [List.mem_singleton.mp he]
        exact List.mem_cons_self _ _
    · rw [List.pairwise_append]
      refine ⟨hpw, List.pairwise_singleton _ _, ?_⟩
      intro a ha b hb
      rw [List.mem_singleton.mp hb]
      intro hfresh
      simp only at hfresh
      have hnotin : host0 ∉ st.seen := by simpa using hfresh
      simp only [hfresh, if_neg (by simp : ¬ (false = true))]
      intro heq
      exact hnotin (heq ▸ hmem a ha)

theorem foldl_emittedInv (cfg : Config) (pid : Option String)
    (nodes : List Node) :
    ∀ st : RunState, EmittedInv st →
      EmittedInv (nodes.foldl (processNode cfg pid) st) := by
  induction nodes with
  | nil => intro st h; exact h
  | cons n ns ih =>
    intro st h
    exact ih _ (processNode_emittedInv cfg pid st n h)

/-- C3 counterexample: three nodes named `a_dup`, `a`, `a` (no node ids)
emit the identifiers `a_dup`, `a`, `a_dup` — the suffixed third identifier
collides with the first, so the emitted identifiers are not pairwise
distinct. -/
theorem emitted_dup_cex :
    (runNodes {} (some "p")
        [{ name := some "a_dup" }, { name := some "a" }, { name := some "a" }]).emitted.map
      Prod.fst = ["a_dup", "a", "a_dup"] ∧
    ¬ ((runNodes {} (some "p")
        [{ name := some "a_dup" }, { name := some "a" }, { name := some "a" }]).emitted.map
      Prod.fst).Nodup := by
  constructor
  · decide
  · decide

/-- C3 amended: an identifier emitted without the deduplication suffix is
distinct from every identifier emitted before it (its candidate was absent
from the used-set); a suffixed identifier is not re-checked against the
used-set, so emitted identifiers need not be pairwise distinct in
general. -/
theorem emitted_unsuffixed_distinct (cfg : Config) (pid : Option String)
    (nodes : List Node) :
    (runNodes cfg pid nodes).emitted.Pairwise
      (fun a b => b.2 = false → a.1 ≠ b.1) :=
  (foldl_emittedInv cfg pid nodes (initState cfg)
    ⟨by simp [initState], by simp [initState]⟩).2

theorem getVar_add_group (inv : Inventory) (g h k : String) :
    (inv.add_group g).getVar h k = inv.getVar h k := by
  simp [Inventory.getVar, vars_add_group]

theorem getVar_add_child (inv : Inventory) (g h h' k' : String) :
    (inv.add_child g h).getVar h' k' = inv.getVar h' k' := by
  simp [Inventory.getVar, vars_add_child]

theorem getVar_add_host (inv : Inventory) (h g h' k' : String) :
    (inv.add_host h g).getVar h' k' = inv.getVar h' k' := by
  simp [Inventory.getVar, vars_add_host]

theorem getVar_empty (h k : String) : Inventory.empty.getVar h k = none := rfl

theorem processNode_getVar_ansible_host (cfg : Config) (pid : Option String)
    (n : Node) (c : String) (hc : candidate cfg.host_naming n = some c) :
    (processNode cfg pid (initState cfg) n).inv.getVar c "ansible_host" =
      some (.jstr (connectionHost cfg.controller_host n)) := by
  rcases hcon : n.console with _ | p | s <;>
    simp [processNode, hc, initState, hcon, List.contains] <;>
    split <;>
    simp [getVar_set_variable, getVar_add_host, getVar_add_group, getVar_add_child,
      getVar_empty]

/-- C4: for a mapped node (processed from the pre-loop state), the
`ansible_port` variable is present iff the raw `console` field is an
integer; when present it equals that integer plus the configured offset;
when `console` is not an integer, `ansible_port` is absent while
`ansible_host` and all the standard `gns3_*` variables are still set. -/
theorem ansible_port_iff_int (cfg : Config) (pid : Option String) (n : Node)
    (c : String) (hc : candidate cfg.host_naming n = some c) :
    (∀ p : Int, n.console = .jint p →
      (processNode cfg pid (initState cfg) n).inv.getVar c "ansible_port" =
        some (.jint (p + cfg.port_offset))) ∧
    ((∀ p : Int, n.console ≠ .jint p) →
      (processNode cfg pid (initState cfg) n).inv.getVar c "ansible_port" = none) ∧
    (processNode cfg pid (initState cfg) n).inv.getVar c "ansible_host" =
      some (.jstr (connectionHost cfg.controller_host n)) ∧
    (processNode cfg pid (initState cfg) n).inv.getVar c "gns3_project_id" =
      some (optJ pid) ∧
    (processNode cfg pid (initState cfg) n).inv.getVar c "gns3_node_id" =
      some (optJ n.node_id) ∧
    (processNode cfg pid (initState cfg) n).inv.getVar c "gns3_node_name" =
      some (optJ n.name) ∧
    (processNode cfg pid (initState cfg) n).inv.getVar c "gns3_node_type" =
      some (optJ n.node_type) ∧
    (processNode cfg pid (initState cfg) n).inv.getVar c "gns3_status" =
      some (optJ n.status) ∧
    (processNode cfg pid (initState cfg) n).inv.getVar c "gns3_console_type" =
      some (optJ n.console_type) ∧
    (processNode cfg pid (initState cfg) n).inv.getVar c "gns3_console_host" =
      some (optJ n.console_host) ∧
    (processNode cfg pid (initState cfg) n).inv.getVar c "gns3_console_port" =
      some n.console := by
  refine ⟨?_, ?_, processNode_getVar_ansible_host cfg pid n c hc, ?_⟩
  · intro p hp
    simp [processNode, hc, initState, hp, List.contains] <;>
      split <;>
      simp [getVar_set_variable, getVar_add_host, getVar_add_group,
        getVar_add_child, getVar_empty]
  · intro hnotint
    rcases hcon : n.console with _ | p | s
    · simp [processNode, hc, initState, hcon, List.contains] <;>
        split <;>
        simp [getVar_set_variable, getVar_add_host, getVar_add_group,
          getVar_add_child, getVar_empty]
    · exact absurd hcon (hnotint p)
    · simp [processNode, hc, initState, hcon, List.contains] <;>
        split <;>
        simp [getVar_set_variable, getVar_add_host, getVar_add_group,
          getVar_add_child, getVar_empty]
  · rcases hcon : n.console with _ | p | s <;>
      simp [processNode, hc, initState, hcon, List.contains] <;>
      split <;>
      simp [getVar_set_variable, getVar_add_host, getVar_add_group,
        getVar_add_child, getVar_empty]

/-- C4 witness: console port 5000 with offset 1 yields `ansible_port`
5001; a string-valued console field yields no `ansible_port` while
`ansible_host` is still set. -/
theorem ansible_port_iff_int_app :
    (processNode { port_offset := 1 } (some "p") (initState { port_offset := 1 })
      { name := some "r1", console := .jint 5000 }).inv.getVar "r1" "ansible_port" =
        some (.jint 5001) ∧
    (processNode {} (some "p") (initState {})
      { name := some "r2", console := .jstr "vnc" }).inv.getVar "r2" "ansible_port" =
        none ∧
    (processNode {} (some "p") (initState {})
      { name := some "r2", console := .jstr "vnc" }).inv.getVar "r2" "ansible_host" =
        some (.jstr (connectionHost "" { name := some "r2", console := .jstr "vnc" })) :=
  ⟨by
    have h := (ansible_port_iff_int { port_offset := 1 } (some "p")
      { name := some "r1", console := .jint 5000 } "r1" (by decide)).1 5000 rfl
    simpa using h,
   (ansible_port_iff_int {} (some "p")
      { name := some "r2", console := .jstr "vnc" } "r2" (by decide)).2.1
      (fun p h => by simp at h),
   (ansible_port_iff_int {} (some "p")
      { name := some "r2", console := .jstr "vnc" } "r2" (by decide)).2.2.1⟩

/-- Case analysis of the connection-host computation: a truthy,
non-wildcard `console_host` passes through unchanged; a falsy one (absent
or empty) and a wildcard one are replaced by the controller hostname. -/
theorem connectionHost_cases (controller : String) (n : Node) :
    (∀ s : String, n.console_host = some s → s ≠ "" → s ≠ "0.0.0.0" → s ≠ "::" →
      connectionHost controller n = s) ∧
    (pyTruthy n.console_host = false → connectionHost controller n = controller) ∧
    (∀ s : String, n.console_host = some s → (s = "0.0.0.0" ∨ s = "::") →
      connectionHost controller n = controller) := by
  refine ⟨?_, ?_, ?_⟩
  · intro s hch hs h0 h4
    simp [connectionHost, hch, (pyTruthy_some s).mpr hs, h0, h4]
  · intro hf
    rcases hch : n.console_host with _ | s
    · simp only [connectionHost, hch]
      split <;> rfl
    · rw [hch] at hf
      simp [connectionHost, hch, hf, ite_self]
  · rintro s hch (rfl | rfl) <;> simp [connectionHost, hch, pyTruthy]

/-- C5 counterexample: a console host that is present but empty does not
pass through unchanged — it is replaced by the controller hostname, even
though it is not one of the wildcard values. -/
theorem ansible_host_empty_cex :
    ({ name := some "r1", console_host := some "" } : Node).console_host = some "" ∧
    (processNode { controller_host := "gns3.example.com" } (some "p")
      (initState { controller_host := "gns3.example.com" })
      { name := some "r1", console_host := some "" }).inv.getVar "r1" "ansible_host" =
        some (.jstr "gns3.example.com") ∧
    ("gns3.example.com" : String) ≠ "" ∧ ("" : String) ≠ "0.0.0.0" ∧
    ("" : String) ≠ "::" := by
  exact ⟨rfl, by decide, by decide, by decide, by decide⟩

/-- C5 amended: `ansible_host` equals the node's raw `console_host` when
that field is present, non-empty and not one of the wildcard values
`0.0.0.0` or `::`; when the field is absent or empty, or holds a wildcard
value, `ansible_host` is the controller hostname parsed from the base
URL. -/
theorem ansible_host_choice (cfg : Config) (pid : Option String) (n : Node)
    (c : String) (hc : candidate cfg.host_naming n = some c) :
    (∀ s : String, n.console_host = some s → s ≠ "" → s ≠ "0.0.0.0" → s ≠ "::" →
      (processNode cfg pid (initState cfg) n).inv.getVar c "ansible_host" =
        some (.jstr s)) ∧
    (pyTruthy n.console_host = false →
      (processNode cfg pid (initState cfg) n).inv.getVar c "ansible_host" =
        some (.jstr cfg.controller_host)) ∧
    (∀ s : String, n.console_host = some s → (s = "0.0.0.0" ∨ s = "::") →
      (processNode cfg pid (initState cfg) n).inv.getVar c "ansible_host" =
        some (.jstr cfg.controller_host)) := by
  have hbase := processNode_getVar_ansible_host cfg pid n c hc
  have hcase := connectionHost_cases cfg.controller_host n
  refine ⟨?_, ?_, ?_⟩
  · intro s hch hs h0 h4
    rw [hbase, hcase.1 s hch hs h0 h4]
  · intro hf
    rw [hbase, hcase.2.1 hf]
  · intro s hch hw
    rw [hbase, hcase.2.2 s hch hw]

/-- C5 witness: a wildcard console host `0.0.0.0` is replaced by the
controller hostname. -/
theorem ansible_host_choice_app :
    (processNode { controller_host := "gns3.example.com" } (some "p")
      (initState { controller_host := "gns3.example.com" })
      { name := some "r1", console_host := some "0.0.0.0" }).inv.getVar "r1"
        "ansible_host" = some (.jstr "gns3.example.com") :=
  (ansible_host_choice { controller_host := "gns3.example.com" } (some "p")
    { name := some "r1", console_host := some "0.0.0.0" } "r1" (by decide)).2.2
    "0.0.0.0" rfl (Or.inl rfl)

theorem gc_add_host (cfg : Config) (inv : Inventory) (host : String)
    (h : GroupClauses cfg inv) :
    GroupClauses cfg (inv.add_host host cfg.parent_group) := by
  rcases h with ⟨hg, hh, hm, hflag⟩
  refine ⟨?_, ?_, ?_, ?_⟩
  · rw [groups_add_host]; exact hg
  · intro x hx
    rcases mem_of_hosts_add_host inv host cfg.parent_group x hx with hx | rfl
    · exact mem_memberships_add_host inv host cfg.parent_group _ (hh x hx)
    · exact add_host_mem_self inv x cfg.parent_group
  · intro m hmem
    rcases mem_of_memberships_add_host inv host cfg.parent_group m hmem with hmem | rfl
    · exact mem_memberships_add_host inv host cfg.parent_group _ (hm m hmem)
    · exact add_host_mem_self inv host cfg.parent_group
  · intro hf
    rw [groups_add_host]; exact hflag hf

theorem gc_type_group (cfg : Config) (Y : Inventory) (host g : String)
    (hflag : cfg.group_by_node_type = true)
    (h2 : GroupClauses cfg Y)
    (hph : (cfg.parent_group, host) ∈ Y.memberships) :
    GroupClauses cfg ((Y.add_group g).add_child g host) := by
  rcases h2 with ⟨hg, hh, hm, _⟩
  refine ⟨?_, ?_, ?_, ?_⟩
  · rw [groups_add_child]; exact mem_groups_add_group Y g _ hg
  · intro x hx
    rw [hosts_add_child, hosts_add_group] at hx
    exact mem_memberships_add_child (Y.add_group g) g host _
      (by rw [memberships_add_group]; exact hh x hx)
  · intro m hmem
    rcases mem_of_memberships_add_child _ g host m hmem with hmem | rfl
    · rw [memberships_add_group] at hmem
      exact mem_memberships_add_child _ g host _
        (by rw [memberships_add_group]; exact hm m hmem)
    · exact mem_memberships_add_child _ g host _
        (by rw [memberships_add_group]; exact hph)
  · intro hf
    rw [hflag] at hf
    exact absurd hf (by simp)

theorem gc_ite_type (cfg : Config) (Y : Inventory) (host g : String) (b : Bool)
    (h2 : GroupClauses cfg Y)
    (hph : (cfg.parent_group, host) ∈ Y.memberships) :
    GroupClauses cfg
      (if (cfg.group_by_node_type && b) = true then (Y.add_group g).add_child g host
        else Y) := by
  split
  · rename_i hcond
    exact gc_type_group cfg Y host g (Bool.and_eq_true _ _ ▸ hcond).1 h2 hph
  · exact h2

theorem gc_eq (cfg : Config) (i1 i2 : Inventory)
    (hgr : i2.groups = i1.groups) (hho : i2.hosts = i1.hosts)
    (hme : i2.memberships = i1.memberships)
    (h : GroupClauses cfg i1) : GroupClauses cfg i2 := by
  rcases h with ⟨hg, hh, hm, hflag⟩
  refine ⟨?_, ?_, ?_, ?_⟩
  · rw [hgr]; exact hg
  · rw [hho, hme]; exact hh
  · rw [hme]; exact hm
  · intro hf; rw [hgr]; exact hflag hf

theorem processNode_groupClauses (cfg : Config) (pid : Option String)
    (st : RunState) (n : Node) (h : GroupClauses cfg st.inv) :
    GroupClauses cfg (processNode cfg pid st n).inv := by
  rcases hcand : candidate cfg.host_naming n with _ | host0
  · simpa [processNode, hcand] using h
  · rcases hcon : n.console with _ | p | s
    all_goals
      simp only [processNode, hcand, hcon]
      generalize (if st.seen.contains host0 then
        host0 ++ "_" ++ dupSuffix n.node_id else host0) = hst
      refine gc_ite_type cfg _ _ _ _ ?_ ?_
      · refine gc_eq cfg _ _ ?_ ?_ ?_ (gc_add_host cfg st.inv hst h) <;>
          simp only [groups_set_variable, hosts_set_variable,
            memberships_set_variable]
      · simp only [memberships_set_variable]
        exact add_host_mem_self st.inv hst cfg.parent_group

theorem foldl_groupClauses (cfg : Config) (pid : Option String)
    (nodes : List Node) :
    ∀ st : RunState, GroupClauses cfg st.inv →
      GroupClauses cfg ((nodes.foldl (processNode cfg pid) st).inv) := by
  induction nodes with
  | nil => intro st h; exact h
  | cons n ns ih =>
    intro st h
    exact ih _ (processNode_groupClauses cfg pid st n h)

/-- C8: the parent group exists before the first host is added (and
re-adding it is a no-op), it still exists at the end of the run, every
registered host is a member of it, every group membership produced by the
node loop is mirrored by a parent-group membership (so the parent group's
membership is a superset of every other group's), and with
`group_by_node_type` disabled the parent group is the only group. -/
theorem parent_group_superset (cfg : Config) (pid : Option String)
    (nodes : List Node) :
    cfg.parent_group ∈ (initState cfg).inv.groups ∧
    (initState cfg).inv.add_group cfg.parent_group = (initState cfg).inv ∧
    cfg.parent_group ∈ (runNodes cfg pid nodes).inv.groups ∧
    (∀ x ∈ (runNodes cfg pid nodes).inv.hosts,
      (cfg.parent_group, x) ∈ (runNodes cfg pid nodes).inv.memberships) ∧
    (∀ m ∈ (runNodes cfg pid nodes).inv.memberships,
      (cfg.parent_group, m.2) ∈ (runNodes cfg pid nodes).inv.memberships) ∧
    (cfg.group_by_node_type = false →
      (runNodes cfg pid nodes).inv.groups = [cfg.parent_group]) := by
  have hgroups : (initState cfg).inv.groups = [cfg.parent_group] := by
    simp [initState, Inventory.empty, Inventory.add_group]
  have hmemp : cfg.parent_group ∈ (initState cfg).inv.groups := by
    rw [hgroups]; exact List.mem_singleton.mpr rfl
  have hinit : GroupClauses cfg (initState cfg).inv := by
    refine ⟨hmemp, ?_, ?_, fun _ => hgroups⟩
    · intro x hx
      simp [initState, Inventory.empty, Inventory.add_group] at hx
    · intro m hm
      simp [initState, Inventory.empty, Inventory.add_group] at hm
  have hrun : GroupClauses cfg (runNodes cfg pid nodes).inv :=
    foldl_groupClauses cfg pid nodes (initState cfg) hinit
  refine ⟨hmemp, ?_, hrun.1, hrun.2.1, hrun.2.2.1, hrun.2.2.2⟩
  unfold Inventory.add_group
  rw [if_pos hmemp]

/-- C6: with caching enabled and a cache entry present, the run returns
the node loop applied to the cached payload unchanged, makes zero remote
calls and writes nothing back; consequently the outcome is independent of
the remote responses, so repeating the run with the same cache entry
reproduces an identical host and group set. -/
theorem cache_hit_uses_payload (cfg : Config) (s : Source)
    (projectsResp : Except String (List Project))
    (nodesResp : Option String → Except String (List Node))
    (hcache : cfg.use_cache = true) :
    parseRun cfg (some s) projectsResp nodesResp =
      (.ok (runNodes cfg s.project_id s.nodes), 0, none) ∧
    (∀ (projectsResp2 : Except String (List Project))
        (nodesResp2 : Option String → Except String (List Node)),
      parseRun cfg (some s) projectsResp nodesResp =
        parseRun cfg (some s) projectsResp2 nodesResp2) := by
  constructor
  · simp [parseRun, fetchSource, hcache]
  · intro pr2 nr2
    simp [parseRun, fetchSource, hcache]

/-- C6 witness: a cache hit returns the cached payload with zero remote
calls even when every remote call would fail. -/
theorem cache_hit_uses_payload_app :
    parseRun { use_cache := true } (some ⟨some "p", []⟩) (.error "down")
        (fun _ => .error "down") =
      (.ok (runNodes { use_cache := true } (some "p") []), 0, none) :=
  (cache_hit_uses_payload { use_cache := true } ⟨some "p", []⟩ (.error "down")
    (fun _ => .error "down") rfl).1

/-- C9: on a cache miss, if the project-list call fails the run aborts
with an error wrapping the cause after exactly one remote call; if project
resolution fails it aborts with the resolution error after one call; if
the node-list call fails it aborts after exactly two calls.  In every case
there is no retry (at most two calls), no cache write, and no inventory —
no host or group has been added. -/
theorem fetch_failure_aborts (cfg : Config) (cached : Option Source)
    (projectsResp : Except String (List Project))
    (nodesResp : Option String → Except String (List Node))
    (hmiss : (if cfg.use_cache then cached else none) = none) :
    (∀ msg : String, projectsResp = .error msg →
      parseRun cfg cached projectsResp nodesResp = (.error (.http msg), 1, none)) ∧
    (∀ (projects : List Project) (e : ParseError), projectsResp = .ok projects →
      find_project_id projects cfg.project_id cfg.project_name = .error e →
      parseRun cfg cached projectsResp nodesResp = (.error e, 1, none)) ∧
    (∀ (projects : List Project) (pid : Option String) (msg : String),
      projectsResp = .ok projects →
      find_project_id projects cfg.project_id cfg.project_name = .ok pid →
      nodesResp pid = .error msg →
      parseRun cfg cached projectsResp nodesResp = (.error (.http msg), 2, none)) := by
  refine ⟨?_, ?_, ?_⟩
  · intro msg hp
    simp [parseRun, fetchSource, hmiss, hp]
  · intro projects e hp hf
    simp [parseRun, fetchSource, hmiss, hp, hf]
  · intro projects pid msg hp hf hn
    simp [parseRun, fetchSource, hmiss, hp, hf, hn]

/-- C9 witness: with caching disabled and a failing project-list call, the
run aborts with the wrapped HTTP error after one remote call, no cache
write and no inventory. -/
theorem fetch_failure_aborts_app :
    parseRun {} none (.error "down") (fun _ => .ok []) =
      (.error (.http "down"), 1, none) :=
  (fetch_failure_aborts {} none (.error "down") (fun _ => .ok []) rfl).1 "down" rfl

end Gns3
